import Mathlib

/-!
Verification of the bashtyped type-checker core (src/src/lib.rs).

The embedding models source strings as lists of characters, the
tree-sitter syntax tree as a rose tree with a zipper cursor, and the
scanning session (`FileInfo`) as explicit state threaded through the
traversal functions.  Diagnostics are kept as structured reports
(message kind plus labelled byte ranges); colour and text formatting
are rendering concerns outside the core.
-/

namespace Bashtyped

/-- Source text, modelled as a list of characters (Rust `str`). -/
abbrev Str := List Char

/-- Rust `str::trim_start`-style removal of leading whitespace. -/
def trimLeft (s : Str) : Str := s.dropWhile Char.isWhitespace

/-- Removal of trailing whitespace. -/
def trimEnd (s : Str) : Str := (s.reverse.dropWhile Char.isWhitespace).reverse

/-- Rust `str::trim`: drop leading and trailing whitespace. -/
def trim (s : Str) : Str := trimEnd (trimLeft s)

/-- Rust `str::strip_prefix`: remove the given leading characters, or fail. -/
def stripPfx : Str → Str → Option Str
  | [], s => some s
  | _ :: _, [] => none
  | p :: ps, c :: cs => if p = c then stripPfx ps cs else none

/-- Rust `str::strip_suffix` for a single-character suffix. -/
def stripSfx (c : Char) (s : Str) : Option Str :=
  match s.reverse with
  | [] => none
  | a :: rest => if a = c then some rest.reverse else none

/-- Rust `str::split`: split on every occurrence of the separator. -/
def splitOn (sep : Char) : Str → List Str
  | [] => [[]]
  | c :: cs =>
    match splitOn sep cs with
    | [] => [[]]
    | p :: ps => if c = sep then [] :: p :: ps else (c :: p) :: ps

/-- Rust `str::split_once`: split at the first occurrence of the separator. -/
def splitOnce (sep : Char) : Str → Option (Str × Str)
  | [] => none
  | c :: cs =>
    if c = sep then some ([], cs)
    else (splitOnce sep cs).map (fun p => (c :: p.1, p.2))

/-- The `BashType` enum from lib.rs: scalar types plus binary unions. -/
inductive BashType where
  | string
  | integer
  | bool
  | any
  | or (t1 t2 : BashType)
deriving DecidableEq, Repr

/-- `BashType::matches` restricted to a scalar second argument: the Rust
code reaches `t.matches(self)` only when `self` is scalar, and then the
"other side is `Or`" test in the callee can never fire, so the recursion
is purely on the first argument.  This helper is that specialisation. -/
def BashType.matchesScalar : BashType → BashType → Bool
  | .or t1 t2, b => t1.matchesScalar b || t2.matchesScalar b
  | a, b => decide (a = .any) || decide (b = .any) || decide (a = b)

/-- `BashType::matches`: symmetric compatibility check.  When `self` is
`Or`, recurse on its branches; when only `other` is `Or`, the Rust code
calls `branch.matches(self)` with scalar `self`, which is
`matchesScalar branch self`. -/
def BashType.matches : BashType → BashType → Bool
  | .or t1 t2, other => t1.matches other || t2.matches other
  | a, .or t1 t2 => t1.matchesScalar a || t2.matchesScalar a
  | a, b => decide (a = .any) || decide (b = .any) || decide (a = b)

/-- `BashType::types_from_or`: flatten an `Or` tree into its leaves. -/
def BashType.types_from_or : BashType → List BashType
  | .or t1 t2 => t1.types_from_or ++ t2.types_from_or
  | t => [t]

/-- `BashType::can_contain`: asymmetric widening containment. -/
def BashType.can_contain (self other : BashType) : Bool :=
  match self with
  | .or t1 t2 =>
    match other with
    | .or _ _ =>
      (other.types_from_or).all
        (fun v => ((BashType.or t1 t2).types_from_or).any (fun u => decide (u = v)))
    | _ => t1.matches other || t2.matches other
  | _ => decide (self = .any) || decide (self = other)

/-- A type with no `Or` structure (one of the four scalar constructors). -/
def BashType.isScalar : BashType → Bool
  | .or _ _ => false
  | _ => true

/-- Fuel-indexed body of `FileInfo::type_from_string`.  The Rust function
recurses on the two halves of a single split; the fuel dominates the
length of the input, so the wrapper below never exhausts it.  `none`
models the `todo!()` panic on unparsable text. -/
def tfsF : Nat → Str → Option BashType
  | 0, _ => none
  | k + 1, input_type =>
    let v := trim input_type
    if v = ("string".toList) then some .string
    else if v = ("int".toList) then some .integer
    else if v = ("bool".toList) then some .bool
    else if v = ("any".toList) then some .any
    else
      match splitOnce '|' v with
      | none => none
      | some p =>
        match tfsF k p.1, tfsF k p.2 with
        | some t1, some t2 => some (.or t1 t2)
        | _, _ => none

/-- `FileInfo::type_from_string`: resolve annotation text to a type.
`none` models the `todo!()` panic on unparsable text. -/
def type_from_string (input_type : Str) : Option BashType :=
  tfsF (input_type.length + 1) input_type

/-- The `Method` enum: provenance of a binding. -/
inductive Method where
  | Inferred
  | Declared
deriving DecidableEq, Repr

/-- A byte range in the source (Rust `Range<usize>`: start, end). -/
abbrev ByteRange := Nat × Nat

/-- The `TypeDeclaration` struct. -/
structure TypeDeclaration where
  range : ByteRange
  bash_type : BashType
  method : Method
deriving DecidableEq, Repr

/-- The transient `Comment` struct: trimmed directive/type text and range. -/
structure Comment where
  text : Str
  range : ByteRange
deriving DecidableEq, Repr

/-- The `ParseErrType` enum. -/
inductive ParseErrType where
  | missingArgument (expected received : Nat)
  | invalidUnicode
  | unknownVariable (var_name : Str)
deriving DecidableEq, Repr

/-- The `ParseError` struct (error kind plus source span). -/
structure ParseError where
  err_type : ParseErrType
  start : Nat
  stop : Nat
deriving DecidableEq, Repr

/-- Primary message of a diagnostic report (structured, not rendered). -/
inductive ReportMsg where
  | typesDoNotMatch
  | variableDefinedWithDifferentType (name : Str)
  | errorWhileParsingComment
deriving DecidableEq, Repr

/-- Message carried by a single diagnostic label. -/
inductive LabelMsg where
  | typeSpecifiedAs (t : BashType)
  | typeInferredToBe (t : BashType)
  | typeToBe (is_later : Bool) (method : Method) (t : BashType)
  | parseErrMsg (e : ParseErrType)
deriving DecidableEq, Repr

/-- A labelled source span inside a report. -/
structure RLabel where
  range : ByteRange
  msg : LabelMsg
deriving DecidableEq, Repr

/-- A structured diagnostic report (ariadne `Report` minus rendering). -/
structure Report where
  offset : Nat
  msg : ReportMsg
  labels : List RLabel
deriving DecidableEq, Repr

/-- The scanning session state of `FileInfo`: the variable binding map
(association list with unique keys), the diagnostics, the force flag. -/
structure FileInfo where
  vars : List (Str × TypeDeclaration)
  errors : List Report
  force : Bool
deriving DecidableEq, Repr

/-- `HashMap::get` on the binding store. -/
def lookupVar (vs : List (Str × TypeDeclaration)) (name : Str) : Option TypeDeclaration :=
  (vs.find? (fun p => decide (p.1 = name))).map (fun p => p.2)

/-- `combine_ranges`: min of starts, max of ends. -/
def combine_ranges (r1 r2 : ByteRange) : ByteRange :=
  (min r1.1 r2.1, max r2.2 r1.2)

/-- `label_from_type_declaration`: label carrying provenance and type. -/
def label_from_type_declaration (decl_type : TypeDeclaration) (is_later : Bool) : RLabel :=
  ⟨decl_type.range, .typeToBe is_later decl_type.method decl_type.bash_type⟩

/-- The "Types do not match" report pushed by `handle_node`. -/
def mismatch_report (offset : Nat) (comment_range : ByteRange) (suggested : BashType)
    (inferred_location : ByteRange) (inferred : BashType) : Report :=
  ⟨offset, .typesDoNotMatch,
    [⟨comment_range, .typeSpecifiedAs suggested⟩,
     ⟨inferred_location, .typeInferredToBe inferred⟩]⟩

/-- The redeclaration-conflict report pushed by `set_variable`. -/
def conflict_report (offset : Nat) (name : Str)
    (previous_type final_type : TypeDeclaration) : Report :=
  ⟨offset, .variableDefinedWithDifferentType name,
    [label_from_type_declaration previous_type false,
     label_from_type_declaration final_type true]⟩

/-- The catch-all report pushed by `parse_code` for a `ParseError`. -/
def parse_err_report (offset : Nat) (e : ParseError) : Report :=
  ⟨offset, .errorWhileParsingComment, [⟨(e.start, e.stop), .parseErrMsg e.err_type⟩]⟩

/-- A tree-sitter syntax node: kind tag, byte span, namedness, the UTF-8
source slice it covers (`utf8_text`, always valid in this model), and
its children in order. -/
inductive STree where
  | mk (kind : Str) (start_byte : Nat) (end_byte : Nat) (named : Bool)
       (text : Str) (children : List STree)
deriving Repr

/-- Node kind tag. -/
def STree.kind : STree → Str
  | .mk k _ _ _ _ _ => k

/-- Start byte of the node's span. -/
def STree.start_byte : STree → Nat
  | .mk _ s _ _ _ _ => s

/-- End byte of the node's span. -/
def STree.end_byte : STree → Nat
  | .mk _ _ e _ _ _ => e

/-- Whether the node is a named node (tree-sitter namedness). -/
def STree.named : STree → Bool
  | .mk _ _ _ n _ _ => n

/-- The source text covered by the node (`Node::utf8_text`). -/
def STree.text : STree → Str
  | .mk _ _ _ _ t _ => t

/-- The node's children in order. -/
def STree.children : STree → List STree
  | .mk _ _ _ _ _ cs => cs

/-- `Node::named_child_count`. -/
def STree.named_child_count (t : STree) : Nat :=
  t.children.countP (fun c => c.named)

/-- `Node::child(i)`: i-th child counting anonymous nodes. -/
def STree.child (t : STree) (i : Nat) : Option STree :=
  t.children[i]?

mutual
/-- Number of nodes in a tree; an always-adequate fuel bound for
`infer_type`, whose recursion goes into a strict subtree. -/
def STree.size : STree → Nat
  | .mk _ _ _ _ _ cs => 1 + STree.sizeList cs
/-- Number of nodes in a forest. -/
def STree.sizeList : List STree → Nat
  | [] => 0
  | t :: ts => STree.size t + STree.sizeList ts
end

/-- The context of one ancestor level in the cursor zipper: the ancestor
node's own data and the siblings on both sides of the path. -/
structure Ctx where
  kind : Str
  start_byte : Nat
  end_byte : Nat
  named : Bool
  text : Str
  left : List STree
  right : List STree
deriving Repr

/-- A `TreeCursor`: the focused node, its siblings (`left` reversed),
and the stack of ancestor contexts. -/
structure Cursor where
  node : STree
  left : List STree
  right : List STree
  parents : List Ctx
deriving Repr

/-- `TreeCursor::goto_first_child` (as an `Option` instead of a mutating bool). -/
def goto_first_child (c : Cursor) : Option Cursor :=
  match c.node.children with
  | [] => none
  | x :: xs =>
    some ⟨x, [], xs,
      ⟨c.node.kind, c.node.start_byte, c.node.end_byte, c.node.named, c.node.text,
       c.left, c.right⟩ :: c.parents⟩

/-- `TreeCursor::goto_next_sibling`. -/
def goto_next_sibling (c : Cursor) : Option Cursor :=
  match c.right with
  | [] => none
  | x :: xs => some ⟨x, c.node :: c.left, xs, c.parents⟩

/-- `TreeCursor::goto_parent`. -/
def goto_parent (c : Cursor) : Option Cursor :=
  match c.parents with
  | [] => none
  | ctx :: ps =>
    some ⟨.mk ctx.kind ctx.start_byte ctx.end_byte ctx.named ctx.text
            (c.left.reverseAux (c.node :: c.right)),
          ctx.left, ctx.right, ps⟩

/-- `Node::prev_sibling().and_then(|v| v.prev_sibling())` at the cursor:
the sibling two places to the left. -/
def prev_prev_sibling (c : Cursor) : Option STree :=
  c.left[1]?

/-- Fuel-indexed body of the sibling-climbing loop at the bottom of
`parse_code`: `while !cursor.goto_next_sibling() { if !cursor.goto_parent()
{ return; } }`.  Each `goto_parent` pops exactly one context, so the
wrapper's fuel `parents.length + 1` stays exactly adequate. -/
def climbF : Nat → Cursor → Option Cursor
  | 0, _ => none
  | k + 1, cursor =>
    match goto_next_sibling cursor with
    | some c => some c
    | none =>
      match goto_parent cursor with
      | some p => climbF k p
      | none => none

/-- The sibling-climbing loop at the bottom of `parse_code`. -/
def climb (cursor : Cursor) : Option Cursor :=
  climbF (cursor.parents.length + 1) cursor

/-- `FileInfo::handle_comment`: recognise `#/` and `#[` comments.  In this
model source slices are always valid UTF-8, so the `InvalidUnicode`
failure path cannot fire. -/
def handle_comment (node : STree) : Option Comment :=
  match (stripPfx ("#/".toList) node.text).orElse
        (fun _ => stripPfx ("#[".toList) node.text) with
  | some comment_info => some ⟨trim comment_info, (node.start_byte, node.end_byte)⟩
  | none => none

/-- Failure of a node handler: a recoverable `ParseError` (Rust `Err`),
or an unrecoverable panic (`todo!()` / a failed `expect`). -/
inductive IErr where
  | parse (e : ParseError)
  | crashed
deriving Repr

/-- Fuel-indexed body of `FileInfo::infer_type`.  The only recursion is
into a strict subtree (the single named child of a `string` node), so
the `sizeOf`-based fuel of the wrapper below never runs out; fuel
exhaustion is mapped to the panic outcome. -/
def inferF (fi : FileInfo) : Nat → STree → Except IErr BashType
  | 0, _ => .error .crashed
  | k + 1, node =>
    if node.kind = ("number".toList) then .ok .integer
    else if node.kind = ("word".toList) then .ok .string
    else if node.kind = ("string".toList) then
      if node.named_child_count = 1 then
        match node.child 1 with
        | none => .error .crashed
        | some content =>
          if content.kind = ("string_content".toList) then .ok .string
          else inferF fi k content
      else .ok .string
    else if node.kind = ("simple_expansion".toList) then
      match node.child 1 with
      | none => .error .crashed
      | some variable_node =>
        let var_name := variable_node.text
        match lookupVar fi.vars var_name with
        | none =>
          .error (.parse ⟨.unknownVariable var_name, variable_node.start_byte,
                          variable_node.end_byte⟩)
        | some d => .ok d.bash_type
    else .error .crashed

/-- `FileInfo::infer_type`: infer the type of an expression node.  The
`todo!()` for unsupported node kinds and the failed `expect`s are the
panic outcome. -/
def infer_type (fi : FileInfo) (node : STree) : Except IErr BashType :=
  inferF fi node.size node

/-- `FileInfo::set_variable`: insert if absent, otherwise conflict-check
against the existing entry (which is never replaced). -/
def set_variable (fi : FileInfo) (name : Str) (final_type : TypeDeclaration)
    (cursor : Cursor) : FileInfo :=
  match lookupVar fi.vars name with
  | some previous_type =>
    if !(final_type.bash_type.can_contain previous_type.bash_type) && !fi.force then
      { fi with errors := fi.errors ++
          [conflict_report cursor.node.start_byte name previous_type final_type] }
    else fi
  | none => { fi with vars := fi.vars ++ [(name, final_type)] }

/-- Result of `FileInfo::handle_node`: the updated session state and the
cursor position it left behind, for both the `Ok` and the `Err` returns
(Rust mutates `self` and the cursor in place, so state changes made
before an `Err` persist), or a panic. -/
inductive NodeResult where
  | ok (fi : FileInfo) (cur : Cursor)
  | perr (fi : FileInfo) (cur : Cursor) (e : ParseError)
  | crashed
deriving Repr

/-- The directive side effects of the `"comment"` arm of
`FileInfo::handle_node` (lib.rs lines 240-271), split out as a function:
executing a `force` or `set_var(...)` command against the session state.
`cursor` is the cursor position after the `goto_next_sibling` call, which
is what the Rust code uses for the error span and the declaration range. -/
def run_directive (fi : FileInfo) (possible_comment : Option Comment)
    (cursor : Cursor) : NodeResult :=
  match possible_comment.bind (fun v => stripSfx ']' v.text) with
  | some command =>
    if command = ("force".toList) then .ok { fi with force := true } cursor
    else
      match (stripPfx ("set_var(".toList) command).bind
              (fun conts => stripSfx ')' conts) with
      | some info =>
        let args := splitOn ',' info
        if args.length ≠ 2 then
          NodeResult.perr fi cursor
            ⟨.missingArgument 2 args.length, cursor.node.start_byte,
             cursor.node.end_byte⟩
        else
          match args with
          | [a0, a1] =>
            match type_from_string a1 with
            | none => .crashed
            | some t =>
              let final_type : TypeDeclaration :=
                ⟨(cursor.node.start_byte, cursor.node.end_byte), t, .Declared⟩
              .ok (set_variable fi a0 final_type cursor) cursor
          | _ => .crashed
      | none => .ok fi cursor
  | none => .ok fi cursor

/-- Fuel-indexed body of `FileInfo::handle_node`.  The only recursion is
the comment chain, which first moves to the next sibling; the wrapper's
fuel `right.length + 1` therefore stays exactly adequate down the chain. -/
def handleF : Nat → FileInfo → Cursor → Option Comment → NodeResult
  | 0, _, _, _ => .crashed
  | k + 1, fi, cursor, possible_comment =>
    if cursor.node.kind = ("comment".toList) then
      let possible_comment := handle_comment cursor.node
      let moved := goto_next_sibling cursor
      let available_sibling := moved.isSome
      let cursor := moved.getD cursor
      match run_directive fi possible_comment cursor with
      | .ok fi1 cursor1 =>
        if !available_sibling then .ok fi1 cursor1
        else handleF k fi1 cursor1 possible_comment
      | r => r
    else if cursor.node.kind = ("variable_assignment".toList) then
      let c1 := (goto_first_child cursor).getD cursor
      let name := c1.node.text
      let c2 := (goto_next_sibling c1).getD c1
      let c3 := (goto_next_sibling c2).getD c2
      match infer_type fi c3.node with
      | .error (.parse e) => .perr fi c3 e
      | .error .crashed => .crashed
      | .ok inferred_type =>
        match prev_prev_sibling c3 with
        | none => .crashed
        | some name_node =>
          let inferred_location : ByteRange := (name_node.start_byte, c3.node.end_byte)
          let c4 := (goto_parent c3).getD c3
          let (inline_type, c6) :=
            match c4.right.head? with
            | some sib =>
              if sib.kind = ("comment".toList) then
                match goto_next_sibling c4 with
                | some c5 => (handle_comment c5.node, c5)
                | none => (none, c4)
              else (none, c4)
            | none => (none, c4)
          match inline_type.orElse (fun _ => possible_comment) with
          | some comment =>
            match type_from_string comment.text with
            | none => .crashed
            | some suggested_type =>
              if suggested_type.can_contain inferred_type || fi.force then
                let final_type : TypeDeclaration :=
                  ⟨combine_ranges comment.range inferred_location, suggested_type,
                   .Declared⟩
                .ok (set_variable fi name final_type c6) c6
              else
                .ok { fi with errors := fi.errors ++
                        [mismatch_report c6.node.start_byte comment.range suggested_type
                          inferred_location inferred_type] } c6
          | none =>
            let final_type : TypeDeclaration :=
              ⟨inferred_location, inferred_type, .Inferred⟩
            .ok (set_variable fi name final_type c6) c6
    else .ok fi cursor

/-- `FileInfo::handle_node`: dispatch on the focused node's kind. -/
def handle_node (fi : FileInfo) (cursor : Cursor) (possible_comment : Option Comment) :
    NodeResult :=
  handleF (cursor.right.length + 1) fi cursor possible_comment

/-- One advance step of the `parse_code` walk: first child if any
(no force reset), else climb to the next sibling of an ancestor (the
`true` flag records that the loop's `self.force = false` runs). -/
def advance (cursor : Cursor) : Option (Cursor × Bool) :=
  match goto_first_child cursor with
  | some c => some (c, false)
  | none => (climb cursor).map (fun c => (c, true))

/-- Result of a whole scan: completed, crashed on a panic, or out of
fuel (the Rust loop can genuinely diverge on degenerate trees, so the
loop is fuel-indexed). -/
inductive ScanResult where
  | done (fi : FileInfo)
  | crashed
  | fuelOut
deriving DecidableEq, Repr

/-- The `parse_code` driver loop: handle the focused node, convert a
`ParseError` into a report anchored at the cursor's current node,
advance, and reset the force flag on every sibling advance. -/
def parse_loop : Nat → FileInfo → Cursor → ScanResult
  | 0, _, _ => .fuelOut
  | k + 1, fi, cursor =>
    match handle_node fi cursor none with
    | .crashed => .crashed
    | .ok fi1 c1 =>
      (match advance c1 with
       | none => .done fi1
       | some (c2, reset) => parse_loop k (if reset then { fi1 with force := false } else fi1) c2)
    | .perr fi1 c1 e =>
      let fi2 := { fi1 with errors := fi1.errors ++ [parse_err_report c1.node.start_byte e] }
      (match advance c1 with
       | none => .done fi2
       | some (c2, reset) => parse_loop k (if reset then { fi2 with force := false } else fi2) c2)

/-- A cursor at the root of a tree (`root_node.walk()`). -/
def root_cursor (t : STree) : Cursor := ⟨t, [], [], []⟩

/-- `FileInfo::parse_code`, given the externally parsed tree. -/
def parse_code (fuel : Nat) (fi : FileInfo) (tree : STree) : ScanResult :=
  parse_loop fuel fi (root_cursor tree)

/-- A cursor focused on a `variable_assignment` node with the grammar's
three children (name, `=`, value), with arbitrary surroundings. -/
def assignment_cursor (s e : Nat) (nb : Bool) (tx : Str) (nnode enode vnode : STree)
    (L R : List STree) (P : List Ctx) : Cursor :=
  ⟨.mk ("variable_assignment".toList) s e nb tx [nnode, enode, vnode], L, R, P⟩

/-- A cursor focused on a `#[set_var(...)]` directive comment with no
following sibling, with arbitrary surroundings. -/
def set_var_cursor (s e : Nat) (nb : Bool) (info : Str) (ch L : List STree)
    (P : List Ctx) : Cursor :=
  ⟨.mk ("comment".toList) s e nb
      ("#[set_var(".toList ++ info ++ ")]".toList) ch, L, [], P⟩

/-- The tree-sitter-bash tree of the two-statement script
`b=$undefined` / `c=1`: the first assignment's value is a
`simple_expansion` of an unbound name, the second is an ordinary
numeric assignment. -/
def unknown_var_tree : STree := .mk ("program".toList) 0 16 true ("b=$undefined\nc=1".toList)
  [ .mk ("variable_assignment".toList) 0 12 true ("b=$undefined".toList)
      [ .mk ("variable_name".toList) 0 1 true ("b".toList) []
      , .mk ("=".toList) 1 2 false ("=".toList) []
      , .mk ("simple_expansion".toList) 2 12 true ("$undefined".toList)
          [ .mk ("$".toList) 2 3 false ("$".toList) []
          , .mk ("variable_name".toList) 3 12 true ("undefined".toList) [] ]
      ]
  , .mk ("variable_assignment".toList) 13 16 true ("c=1".toList)
      [ .mk ("variable_name".toList) 13 14 true ("c".toList) []
      , .mk ("=".toList) 14 15 false ("=".toList) []
      , .mk ("number".toList) 15 16 true ("1".toList) [] ]
  ]

/-- The tree-sitter-bash tree of the script
`#[force]` / `a=1 #/ int` / `a=2 #/ int`:
a force directive, then a redeclaration of `a` covered by it, then a
second redeclaration not covered by it. -/
def force_tree : STree := .mk ("program".toList) 0 30 true ("f".toList)
  [ .mk ("comment".toList) 0 8 false ("#[force]".toList) []
  , .mk ("variable_assignment".toList) 9 12 true ("a=1".toList)
      [ .mk ("variable_name".toList) 9 10 true ("a".toList) []
      , .mk ("=".toList) 10 11 false ("=".toList) []
      , .mk ("number".toList) 11 12 true ("1".toList) [] ]
  , .mk ("comment".toList) 13 19 false ("#/ int".toList) []
  , .mk ("variable_assignment".toList) 20 23 true ("a=2".toList)
      [ .mk ("variable_name".toList) 20 21 true ("a".toList) []
      , .mk ("=".toList) 21 22 false ("=".toList) []
      , .mk ("number".toList) 22 23 true ("2".toList) [] ]
  , .mk ("comment".toList) 24 30 false ("#/ int".toList) [] ]

/-- `force_tree` without the leading `#[force]` directive (same byte
positions), to witness the diagnostic that the directive suppresses. -/
def noforce_tree : STree := .mk ("program".toList) 0 30 true ("g".toList)
  [ .mk ("variable_assignment".toList) 9 12 true ("a=1".toList)
      [ .mk ("variable_name".toList) 9 10 true ("a".toList) []
      , .mk ("=".toList) 10 11 false ("=".toList) []
      , .mk ("number".toList) 11 12 true ("1".toList) [] ]
  , .mk ("comment".toList) 13 19 false ("#/ int".toList) []
  , .mk ("variable_assignment".toList) 20 23 true ("a=2".toList)
      [ .mk ("variable_name".toList) 20 21 true ("a".toList) []
      , .mk ("=".toList) 21 22 false ("=".toList) []
      , .mk ("number".toList) 22 23 true ("2".toList) [] ]
  , .mk ("comment".toList) 24 30 false ("#/ int".toList) [] ]

/-! ### Helper lemmas -/

lemma matchesScalar_any_right (t : BashType) : t.matchesScalar .any = true := by
  induction t with
  | or t1 t2 ih1 ih2 => simp [BashType.matchesScalar, ih1, ih2]
  | _ => simp [BashType.matchesScalar]

lemma matches_any_right (t : BashType) : t.matches .any = true := by
  induction t with
  | or t1 t2 ih1 ih2 => simp [BashType.matches, ih1, ih2]
  | _ => simp [BashType.matches]

lemma trimEnd_idem (s : Str) : trimEnd (trimEnd s) = trimEnd s := by
  simp [trimEnd, List.dropWhile_idempotent]

lemma trimEnd_prefix_self (s : Str) : trimEnd s <+: s := by
  have h := List.dropWhile_suffix (l := s.reverse) (fun c => c.isWhitespace)
  have h2 := List.reverse_prefix.mpr h
  simpa [trimEnd] using h2

lemma head?_trimLeft_not (s : Str) :
    ∀ c, (trimLeft s).head? = some c → c.isWhitespace = false := by
  intro c hc
  have h := List.head?_dropWhile_not (fun c => c.isWhitespace) s
  rw [show (trimLeft s) = s.dropWhile (fun c => c.isWhitespace) from rfl] at hc
  rw [hc] at h
  exact h

lemma head?_trimEnd_eq (s : Str) :
    trimEnd s = [] ∨ (trimEnd s).head? = s.head? := by
  cases h : trimEnd s with
  | nil => exact Or.inl rfl
  | cons a t =>
    right
    obtain ⟨u, hu⟩ := trimEnd_prefix_self s
    rw [h] at hu
    rw [← hu]
    simp [h]

lemma dropWhile_trim_eq (s : Str) :
    (trimEnd (trimLeft s)).dropWhile (fun c => c.isWhitespace) = trimEnd (trimLeft s) := by
  cases head?_trimEnd_eq (trimLeft s) with
  | inl h => simp [h]
  | inr h =>
    cases h2 : trimEnd (trimLeft s) with
    | nil => simp
    | cons a t =>
      have ha : (trimLeft s).head? = some a := by rw [← h, h2]; simp
      have hw := head?_trimLeft_not s a ha
      simp [List.dropWhile_cons, hw]

lemma trim_idem (s : Str) : trim (trim s) = trim s := by
  show trimEnd (trimLeft (trimEnd (trimLeft s))) = trimEnd (trimLeft s)
  rw [show trimLeft (trimEnd (trimLeft s)) = trimEnd (trimLeft s) from dropWhile_trim_eq s]
  exact trimEnd_idem _

lemma trim_length_le (s : Str) : (trim s).length ≤ s.length := by
  have h1 : (trimLeft s).length ≤ s.length :=
    (List.dropWhile_suffix (l := s) (fun c : Char => c.isWhitespace)).length_le
  have h2 : (trim s).length ≤ (trimLeft s).length :=
    (trimEnd_prefix_self (trimLeft s)).length_le
  omega

lemma splitOnce_lt (c : Char) (s : Str) (p : Str × Str) (h : splitOnce c s = some p) :
    p.1.length < s.length ∧ p.2.length < s.length := by
  induction s generalizing p with
  | nil => simp [splitOnce] at h
  | cons a t ih =>
    by_cases hac : a = c
    · simp [splitOnce, hac] at h
      cases h
      simp
    · simp only [splitOnce, if_neg hac, Option.map_eq_some'] at h
      obtain ⟨q, hq, rfl⟩ := h
      have := ih q hq
      simp
      omega

lemma tfsF_stable (k1 : Nat) : ∀ (k2 : Nat) (s : Str), s.length < k1 → s.length < k2 →
    tfsF k1 s = tfsF k2 s := by
  induction k1 with
  | zero => intro k2 s h1; omega
  | succ m ih =>
    intro k2 s h1 h2
    cases k2 with
    | zero => omega
    | succ n =>
      simp only [tfsF]
      split_ifs
      any_goals rfl
      cases hsp : splitOnce '|' (trim s) with
      | none => rfl
      | some p =>
        have hlt := splitOnce_lt '|' (trim s) p hsp
        have htl := trim_length_le s
        dsimp only
        rw [ih m p.1 (by omega) (by omega), ih m p.2 (by omega) (by omega),
            ih n p.1 (by omega) (by omega), ih n p.2 (by omega) (by omega)]

lemma type_from_string_trim (s : Str) :
    type_from_string s = type_from_string (trim s) := by
  show tfsF (s.length + 1) s = tfsF ((trim s).length + 1) (trim s)
  simp only [tfsF]
  rw [trim_idem]
  split_ifs
  any_goals rfl
  cases hsp : splitOnce '|' (trim s) with
  | none => rfl
  | some p =>
    have hlt := splitOnce_lt '|' (trim s) p hsp
    have htl := trim_length_le s
    dsimp only
    rw [tfsF_stable s.length (trim s).length p.1 (by omega) (by omega),
        tfsF_stable s.length (trim s).length p.2 (by omega) (by omega)]

lemma lookupVar_append_of_none (V : List (Str × TypeDeclaration)) (n k : Str)
    (d : TypeDeclaration) (h : lookupVar V n = none) :
    lookupVar (V ++ [(k, d)]) n = if k = n then some d else none := by
  simp only [lookupVar, Option.map_eq_none'] at h
  simp only [lookupVar, List.find?_append, h, Option.none_or, List.find?]
  by_cases hk : k = n <;> simp [hk]

lemma lookupVar_append_of_some (V : List (Str × TypeDeclaration)) (n k : Str)
    (d d0 : TypeDeclaration) (h : lookupVar V n = some d0) :
    lookupVar (V ++ [(k, d)]) n = some d0 := by
  simp only [lookupVar, Option.map_eq_some'] at h
  obtain ⟨pair, hp, hd⟩ := h
  simp [lookupVar, List.find?_append, hp, hd]

lemma set_variable_pres (fi : FileInfo) (nm n : Str) (ft : TypeDeclaration)
    (cur : Cursor) (d : TypeDeclaration) (h : lookupVar fi.vars n = some d) :
    lookupVar (set_variable fi nm ft cur).vars n = some d := by
  unfold set_variable
  cases hl : lookupVar fi.vars nm with
  | some prev =>
    dsimp only
    split_ifs <;> simpa using h
  | none => simpa using lookupVar_append_of_some fi.vars n nm ft d h

/-- The binding of `n` is still exactly `d` in the state a node handler
returned (trivially so if it panicked). -/
def binding_kept (n : Str) (d : TypeDeclaration) : NodeResult → Prop
  | .ok fi2 _ => lookupVar fi2.vars n = some d
  | .perr fi2 _ _ => lookupVar fi2.vars n = some d
  | .crashed => True

lemma run_directive_pres (fi : FileInfo) (pc : Option Comment) (cur : Cursor)
    (n : Str) (d : TypeDeclaration) (h : lookupVar fi.vars n = some d) :
    binding_kept n d (run_directive fi pc cur) := by
  unfold run_directive
  repeat'
    first
      | split
      | (dsimp only)
      | (simp only [binding_kept])
  all_goals first
    | trivial
    | simpa using h
    | (apply set_variable_pres; simpa using h)

lemma handleF_pres (k : Nat) : ∀ (fi : FileInfo) (cur : Cursor) (pc : Option Comment)
    (n : Str) (d : TypeDeclaration), lookupVar fi.vars n = some d →
    binding_kept n d (handleF k fi cur pc) := by
  induction k with
  | zero => intro fi cur pc n d h; simp [handleF, binding_kept]
  | succ m ih =>
    intro fi cur pc n d h
    simp only [handleF]
    split
    · -- comment branch
      have hd := run_directive_pres fi (handle_comment cur.node)
        ((goto_next_sibling cur).getD cur) n d h
      cases hD : run_directive fi (handle_comment cur.node)
          ((goto_next_sibling cur).getD cur) with
      | ok fi1 c1 =>
        rw [hD] at hd
        simp only [binding_kept] at hd
        cases hmv : goto_next_sibling cur with
        | none => simp only [hmv]; simpa [binding_kept] using hd
        | some c2 =>
          simp only [hmv]
          simpa [binding_kept] using ih fi1 c1 (handle_comment cur.node) n d hd
      | perr fi1 c1 e =>
        rw [hD] at hd
        simpa [binding_kept] using hd
      | crashed => simp [binding_kept]
    · -- non-comment branches
      repeat'
        first
          | split
          | (dsimp only)
          | (simp only [binding_kept])
      all_goals first
        | trivial
        | simpa using h
        | (apply set_variable_pres; simpa using h)

lemma parse_loop_pres (fuel : Nat) : ∀ (fi : FileInfo) (cur : Cursor) (n : Str)
    (d : TypeDeclaration) (fi2 : FileInfo), lookupVar fi.vars n = some d →
    parse_loop fuel fi cur = .done fi2 → lookupVar fi2.vars n = some d := by
  induction fuel with
  | zero => intro fi cur n d fi2 h hp; simp [parse_loop] at hp
  | succ m ih =>
    intro fi cur n d fi2 h hp
    have hh : binding_kept n d (handle_node fi cur none) :=
      handleF_pres (cur.right.length + 1) fi cur none n d h
    simp only [parse_loop] at hp
    cases hres : handle_node fi cur none with
    | crashed => rw [hres] at hp; simp at hp
    | ok fi1 c1 =>
      rw [hres] at hp hh
      dsimp only at hp
      simp only [binding_kept] at hh
      cases hadv : advance c1 with
      | none =>
        rw [hadv] at hp
        simp only [ScanResult.done.injEq] at hp
        exact hp ▸ hh
      | some pr =>
        obtain ⟨c2, reset⟩ := pr
        rw [hadv] at hp
        simp only at hp
        cases reset with
        | false => exact ih _ _ n d fi2 (by simpa using hh) hp
        | true => exact ih _ _ n d fi2 (by simpa using hh) hp
    | perr fi1 c1 e =>
      rw [hres] at hp hh
      dsimp only at hp
      simp only [binding_kept] at hh
      cases hadv : advance c1 with
      | none =>
        rw [hadv] at hp
        simp only [ScanResult.done.injEq] at hp
        rw [← hp]
        simpa using hh
      | some pr =>
        obtain ⟨c2, reset⟩ := pr
        rw [hadv] at hp
        simp only at hp
        cases reset with
        | false => exact ih _ _ n d fi2 (by simpa using hh) hp
        | true => exact ih _ _ n d fi2 (by simpa using hh) hp

lemma can_contain_or_any (t1 t2 : BashType) :
    (BashType.or t1 t2).can_contain .any = true := by
  simp [BashType.can_contain, matches_any_right]

lemma scalar_can_contain_any_eq_false (s : BashType) (hs : s.isScalar = true)
    (hne : s ≠ .any) : s.can_contain .any = false := by
  cases s <;> simp_all [BashType.can_contain, BashType.isScalar]

/-! ### Claim theorems -/

/-- C4: `Any` is the absorbing top element: for every scalar type `t`,
`matches(Any, t)` and `matches(t, Any)` are true, and for every type `t`
of any shape, `can_contain(Any, t)` is true (the non-`Or` branch of
`can_contain` tests `self = Any` first, so the scalar-equality test is
never reached for `Any`). -/
theorem c4_any_absorbing_top :
    (∀ t : BashType, t.isScalar = true →
      BashType.matches .any t = true ∧ BashType.matches t .any = true)
    ∧ (∀ t : BashType, BashType.can_contain .any t = true) := by
  constructor
  · intro t ht
    cases t <;> simp_all [BashType.matches, BashType.isScalar]
  · intro t
    cases t <;> simp [BashType.can_contain]

/-- Witness for C4 at the concrete scalar `Integer` and the union
`Or(String, Integer)`. -/
theorem c4_any_absorbing_top_witness :
    (BashType.matches .any .integer = true ∧ BashType.matches .integer .any = true)
    ∧ BashType.can_contain .any (.or .string .integer) = true :=
  ⟨c4_any_absorbing_top.1 .integer (by decide), c4_any_absorbing_top.2 (.or .string .integer)⟩

/-- C5: when both container and value are `Or` unions, `can_contain`
holds exactly when every flattened leaf of the value's union appears
among the container's flattened leaves (set-subset semantics, so nesting
order and duplicates are irrelevant); in particular
`Or(Integer, String).can_contain(Or(String, Integer))` is true although
the two `Or` values are structurally unequal. -/
theorem c5_union_set_subset :
    (∀ a b c d : BashType,
      (BashType.or a b).can_contain (.or c d) = true ↔
        ∀ t ∈ (BashType.or c d).types_from_or, t ∈ (BashType.or a b).types_from_or)
    ∧ (BashType.or .integer .string).can_contain (.or .string .integer) = true
    ∧ BashType.or .integer .string ≠ .or .string .integer := by
  refine ⟨?_, by decide, by decide⟩
  intro a b c d
  simp only [BashType.can_contain, List.all_eq_true, List.any_eq_true,
    decide_eq_true_eq]
  constructor
  · intro hsub t ht
    obtain ⟨u, hu, rfl⟩ := hsub t ht
    exact hu
  · intro hsub v hv
    exact ⟨v, hsub v hv, rfl⟩

/-- Witness for C5: the subset characterisation instantiated at
`Or(Integer, Bool)` against `Or(Bool, Integer)`. -/
theorem c5_union_set_subset_witness :
    (BashType.or .integer .bool).can_contain (.or .bool .integer) = true ↔
      ∀ t ∈ (BashType.or .bool .integer).types_from_or,
        t ∈ (BashType.or .integer .bool).types_from_or :=
  c5_union_set_subset.1 .integer .bool .bool .integer

/-- C6: containment is asymmetric in the widening direction:
`Or(Integer, Bool).can_contain(Integer)` is true while
`Integer.can_contain(Or(Integer, Bool))` is false. -/
theorem c6_containment_directional :
    (BashType.or .integer .bool).can_contain .integer = true
    ∧ BashType.can_contain .integer (.or .integer .bool) = false := by
  decide

/-- C7: `type_from_string` trims its input, maps the four literals to the
corresponding scalar types, and splits unions on the first `|` with
recursion on both halves, so `"int|string|bool"` parses to the
right-nested `Or(Integer, Or(String, Bool))`. -/
theorem c7_type_from_string_spec :
    type_from_string ("string".toList) = some .string
    ∧ type_from_string ("int".toList) = some .integer
    ∧ type_from_string ("bool".toList) = some .bool
    ∧ type_from_string ("any".toList) = some .any
    ∧ (∀ s : Str, type_from_string s = type_from_string (trim s))
    ∧ type_from_string ("int|string|bool".toList) =
        some (.or .integer (.or .string .bool)) := by
  refine ⟨by decide, by decide, by decide, by decide, type_from_string_trim, by decide⟩

/-- Witness for C7: trim-invariance evaluated at the padded literal
`"  int "`. -/
theorem c7_type_from_string_spec_witness :
    type_from_string ("  int ".toList) = type_from_string (trim ("  int ".toList))
    ∧ type_from_string ("  int ".toList) = some .integer :=
  ⟨c7_type_from_string_spec.2.2.2.2.1 ("  int ".toList), by decide⟩

/-- C10: `can_contain(Or(t1, t2), Any)` is true for every pair of types,
because the scalar-value branch delegates to `matches` and every type
matches `Any`; consequently `set_variable` accepts a union redeclaration
of a variable previously typed `Any` with no diagnostic, while a
non-`Any` scalar redeclaration of the same variable is rejected with a
conflict report. -/
theorem c10_union_contains_any :
    (∀ t1 t2 : BashType, (BashType.or t1 t2).can_contain .any = true)
    ∧ (∀ (fi : FileInfo) (name : Str) (r rng : ByteRange) (m mth : Method)
        (t1 t2 : BashType) (cur : Cursor), fi.force = false →
        lookupVar fi.vars name = some ⟨r, .any, m⟩ →
        set_variable fi name ⟨rng, .or t1 t2, mth⟩ cur = fi)
    ∧ (∀ (fi : FileInfo) (name : Str) (r rng : ByteRange) (m mth : Method)
        (s : BashType) (cur : Cursor), fi.force = false →
        lookupVar fi.vars name = some ⟨r, .any, m⟩ →
        s.isScalar = true → s ≠ .any →
        set_variable fi name ⟨rng, s, mth⟩ cur =
          { fi with errors := fi.errors ++
              [conflict_report cur.node.start_byte name ⟨r, .any, m⟩ ⟨rng, s, mth⟩] }) := by
  refine ⟨fun t1 t2 => can_contain_or_any t1 t2, ?_, ?_⟩
  · intro fi name r rng m mth t1 t2 cur hforce hlook
    simp [set_variable, hlook, can_contain_or_any, hforce]
  · intro fi name r rng m mth s cur hforce hlook hs hne
    simp [set_variable, hlook, scalar_can_contain_any_eq_false s hs hne, hforce]

/-- Witness for C10 at a concrete state binding `x` to `Any`. -/
theorem c10_union_contains_any_witness :
    (BashType.or .integer .bool).can_contain .any = true
    ∧ set_variable ⟨[(("x".toList), ⟨(0, 1), .any, .Inferred⟩)], [], false⟩
        ("x".toList) ⟨(2, 3), .or .integer .bool, .Declared⟩
        (root_cursor (.mk [] 0 0 true [] []))
        = ⟨[(("x".toList), ⟨(0, 1), .any, .Inferred⟩)], [], false⟩
    ∧ set_variable ⟨[(("x".toList), ⟨(0, 1), .any, .Inferred⟩)], [], false⟩
        ("x".toList) ⟨(2, 3), .integer, .Declared⟩
        (root_cursor (.mk [] 0 0 true [] []))
        = ⟨[(("x".toList), ⟨(0, 1), .any, .Inferred⟩)],
           [conflict_report 0 ("x".toList) ⟨(0, 1), .any, .Inferred⟩
             ⟨(2, 3), .integer, .Declared⟩], false⟩ :=
  ⟨c10_union_contains_any.1 .integer .bool,
   c10_union_contains_any.2.1 ⟨[(("x".toList), ⟨(0, 1), .any, .Inferred⟩)], [], false⟩
     ("x".toList) (0, 1) (2, 3) .Inferred .Declared .integer .bool
     (root_cursor (.mk [] 0 0 true [] [])) rfl (by decide),
   c10_union_contains_any.2.2 ⟨[(("x".toList), ⟨(0, 1), .any, .Inferred⟩)], [], false⟩
     ("x".toList) (0, 1) (2, 3) .Inferred .Declared .integer
     (root_cursor (.mk [] 0 0 true [] [])) rfl (by decide) (by decide) (by decide)⟩

/-- C1: the binding store only ever keeps the first declaration inserted
for a name: `set_variable` inserts the new declaration only when the
name has no existing entry, leaves the map unchanged in every other case
(forced redeclaration, accepted widening, or rejected conflict), and an
existing entry therefore survives the rest of the scan loop unchanged. -/
theorem c1_first_binding_kept :
    (∀ (fi : FileInfo) (name : Str) (ft : TypeDeclaration) (cur : Cursor),
        (lookupVar fi.vars name).isSome = true →
        (set_variable fi name ft cur).vars = fi.vars)
    ∧ (∀ (fi : FileInfo) (name : Str) (ft : TypeDeclaration) (cur : Cursor),
        lookupVar fi.vars name = none →
        (set_variable fi name ft cur).vars = fi.vars ++ [(name, ft)])
    ∧ (∀ (fuel : Nat) (fi : FileInfo) (cur : Cursor) (n : Str) (d : TypeDeclaration)
        (fi2 : FileInfo), lookupVar fi.vars n = some d →
        parse_loop fuel fi cur = .done fi2 → lookupVar fi2.vars n = some d) := by
  refine ⟨?_, ?_, fun fuel => parse_loop_pres fuel⟩
  · intro fi name ft cur hsome
    unfold set_variable
    cases hl : lookupVar fi.vars name with
    | none => rw [hl] at hsome; simp at hsome
    | some prev => dsimp only; split_ifs <;> rfl
  · intro fi name ft cur hnone
    simp [set_variable, hnone]

/-- Witness for C1 at a concrete one-entry store and a one-node tree. -/
theorem c1_first_binding_kept_witness :
    (set_variable ⟨[(("x".toList), ⟨(0, 1), .integer, .Inferred⟩)], [], false⟩
        ("x".toList) ⟨(2, 3), .string, .Declared⟩
        (root_cursor (.mk ("program".toList) 0 0 true [] []))).vars
      = [(("x".toList), ⟨(0, 1), .integer, .Inferred⟩)]
    ∧ (set_variable ⟨[], [], false⟩ ("y".toList) ⟨(2, 3), .string, .Declared⟩
        (root_cursor (.mk ("program".toList) 0 0 true [] []))).vars
      = [(("y".toList), ⟨(2, 3), .string, .Declared⟩)]
    ∧ lookupVar (⟨[(("x".toList), ⟨(0, 1), .integer, .Inferred⟩)], [], false⟩ :
        FileInfo).vars ("x".toList) = some ⟨(0, 1), .integer, .Inferred⟩ := by
  refine ⟨c1_first_binding_kept.1 _ _ _ _ (by decide),
    ?_,
    c1_first_binding_kept.2.2 1 ⟨[(("x".toList), ⟨(0, 1), .integer, .Inferred⟩)], [], false⟩
      (root_cursor (.mk ("program".toList) 0 0 true [] [])) ("x".toList)
      ⟨(0, 1), .integer, .Inferred⟩ _ (by decide) (by decide)⟩
  have h := c1_first_binding_kept.2.1 ⟨[], [], false⟩ ("y".toList)
    ⟨(2, 3), .string, .Declared⟩
    (root_cursor (.mk ("program".toList) 0 0 true [] [])) (by decide)
  simpa using h

/-- C2: for a `variable_assignment` carrying an annotation — pending
(passed in from a preceding comment) or inline (a trailing `comment`
sibling, which takes precedence) — if the annotation's resolved type
cannot contain the inferred type and force is off, exactly one
type-mismatch report is appended, with the specified type labelled at
the annotation's range and the inferred type at the inferred location,
and no binding is recorded; otherwise the `Declared` binding with the
annotation's type is passed to `set_variable`. -/
theorem c2_type_mismatch_handling :
    (∀ (fi : FileInfo) (s e : Nat) (nb : Bool) (tx : Str) (nnode enode vnode : STree)
      (L : List STree) (P : List Ctx) (com : Comment) (suggested inferred : BashType),
      infer_type fi vnode = .ok inferred →
      type_from_string com.text = some suggested →
      ((suggested.can_contain inferred = false → fi.force = false →
        handle_node fi (assignment_cursor s e nb tx nnode enode vnode L [] P) (some com) =
          .ok { fi with errors := fi.errors ++
              [mismatch_report s com.range suggested (nnode.start_byte, vnode.end_byte)
                inferred] }
            (assignment_cursor s e nb tx nnode enode vnode L [] P))
      ∧ ((suggested.can_contain inferred || fi.force) = true →
        handle_node fi (assignment_cursor s e nb tx nnode enode vnode L [] P) (some com) =
          .ok (set_variable fi nnode.text
              ⟨combine_ranges com.range (nnode.start_byte, vnode.end_byte), suggested,
               .Declared⟩
              (assignment_cursor s e nb tx nnode enode vnode L [] P))
            (assignment_cursor s e nb tx nnode enode vnode L [] P))))
    ∧ (∀ (fi : FileInfo) (s e : Nat) (nb : Bool) (tx : Str)
      (nnode enode vnode cnode : STree) (L R : List STree) (P : List Ctx)
      (pc : Option Comment) (com : Comment) (suggested inferred : BashType),
      cnode.kind = ("comment".toList) →
      handle_comment cnode = some com →
      infer_type fi vnode = .ok inferred →
      type_from_string com.text = some suggested →
      ((suggested.can_contain inferred = false → fi.force = false →
        handle_node fi (assignment_cursor s e nb tx nnode enode vnode L (cnode :: R) P) pc =
          .ok { fi with errors := fi.errors ++
              [mismatch_report cnode.start_byte com.range suggested
                (nnode.start_byte, vnode.end_byte) inferred] }
            ⟨cnode, (.mk ("variable_assignment".toList) s e nb tx [nnode, enode, vnode]) :: L,
             R, P⟩)
      ∧ ((suggested.can_contain inferred || fi.force) = true →
        handle_node fi (assignment_cursor s e nb tx nnode enode vnode L (cnode :: R) P) pc =
          .ok (set_variable fi nnode.text
              ⟨combine_ranges com.range (nnode.start_byte, vnode.end_byte), suggested,
               .Declared⟩
              ⟨cnode, (.mk ("variable_assignment".toList) s e nb tx [nnode, enode, vnode]) :: L,
               R, P⟩)
            ⟨cnode, (.mk ("variable_assignment".toList) s e nb tx [nnode, enode, vnode]) :: L,
             R, P⟩))) := by
  constructor
  · intro fi s e nb tx nnode enode vnode L P com suggested inferred hinfer htfs
    constructor
    · intro hcc hforce
      simp [handle_node, handleF, assignment_cursor, goto_first_child, goto_next_sibling,
        goto_parent, prev_prev_sibling, hinfer, htfs, hcc, hforce,
        STree.kind, STree.start_byte, STree.end_byte, STree.named, STree.text, STree.children,
        STree.child, STree.named_child_count, handle_comment, run_directive,
        trim, trimLeft, trimEnd, stripPfx, stripSfx, splitOn, splitOnce]
    · intro hok
      simp [handle_node, handleF, assignment_cursor, goto_first_child, goto_next_sibling,
        goto_parent, prev_prev_sibling, hinfer, htfs, hok,
        STree.kind, STree.start_byte, STree.end_byte, STree.named, STree.text, STree.children,
        STree.child, STree.named_child_count, handle_comment, run_directive,
        trim, trimLeft, trimEnd, stripPfx, stripSfx, splitOn, splitOnce]
  · intro fi s e nb tx nnode enode vnode cnode L R P pc com suggested inferred hck hcom
      hinfer htfs
    obtain ⟨ck, cs, ce, cn, ct, cch⟩ := cnode
    simp only [STree.kind] at hck
    subst hck
    simp only [String.toList, String.data] at hcom
    constructor
    · intro hcc hforce
      simp [handle_node, handleF, assignment_cursor, goto_first_child, goto_next_sibling,
        goto_parent, prev_prev_sibling, hinfer, htfs, hcc, hforce, hcom,
        STree.kind, STree.start_byte, STree.end_byte, STree.named, STree.text, STree.children,
        STree.child, STree.named_child_count, run_directive]
    · intro hok
      simp [handle_node, handleF, assignment_cursor, goto_first_child, goto_next_sibling,
        goto_parent, prev_prev_sibling, hinfer, htfs, hok, hcom,
        STree.kind, STree.start_byte, STree.end_byte, STree.named, STree.text, STree.children,
        STree.child, STree.named_child_count, run_directive]

/-- Witness for C2: a rejected annotation (`x=1` with a pending `bool`
annotation) appends exactly the mismatch report and records nothing. -/
theorem c2_type_mismatch_handling_witness :
    handle_node ⟨[], [], false⟩
      (assignment_cursor 0 3 true ("x=1".toList)
        (.mk ("variable_name".toList) 0 1 true ("x".toList) [])
        (.mk ("=".toList) 1 2 false ("=".toList) [])
        (.mk ("number".toList) 2 3 true ("1".toList) []) [] [] [])
      (some ⟨("bool".toList), (4, 10)⟩) =
    .ok ⟨[], [mismatch_report 0 (4, 10) .bool (0, 3) .integer], false⟩
      (assignment_cursor 0 3 true ("x=1".toList)
        (.mk ("variable_name".toList) 0 1 true ("x".toList) [])
        (.mk ("=".toList) 1 2 false ("=".toList) [])
        (.mk ("number".toList) 2 3 true ("1".toList) []) [] [] []) := by
  have h := (c2_type_mismatch_handling.1 ⟨[], [], false⟩ 0 3 true ("x=1".toList)
    (.mk ("variable_name".toList) 0 1 true ("x".toList) [])
    (.mk ("=".toList) 1 2 false ("=".toList) [])
    (.mk ("number".toList) 2 3 true ("1".toList) []) [] []
    ⟨("bool".toList), (4, 10)⟩ .bool .integer (by rfl) (by decide)).1
    (by decide) (by rfl)
  simpa [STree.start_byte, STree.end_byte] using h

/-- C8: processing a `#[set_var(...)]` directive fails with
`MissingArgument{expected: 2, received: n}` exactly when splitting the
argument text on `,` yields `n ≠ 2` parts, and on success
inserts/conflict-checks a `Declared` binding for the named variable with
no assignment node involved. -/
theorem c8_set_var_directive :
    ∀ (fi : FileInfo) (s e : Nat) (nb : Bool) (info : Str) (ch L : List STree)
      (P : List Ctx) (pc : Option Comment) (args : List Str),
      splitOn ',' info = args →
      ((args.length ≠ 2 →
        handle_node fi (set_var_cursor s e nb info ch L P) pc =
          .perr fi (set_var_cursor s e nb info ch L P)
            ⟨.missingArgument 2 args.length, s, e⟩)
      ∧ (∀ (a0 a1 : Str) (t : BashType), args = [a0, a1] →
          type_from_string a1 = some t →
          handle_node fi (set_var_cursor s e nb info ch L P) pc =
            .ok (set_variable fi a0 ⟨(s, e), t, .Declared⟩
                (set_var_cursor s e nb info ch L P))
              (set_var_cursor s e nb info ch L P))) := by
  intro fi s e nb info ch L P pc args hargs
  constructor
  · intro hne
    simp [handle_node, handleF, set_var_cursor, goto_next_sibling, handle_comment,
      run_directive, trim, trimLeft, trimEnd, stripPfx, stripSfx, hargs, hne,
      STree.kind, STree.start_byte, STree.end_byte, STree.named, STree.text, STree.children]
  · intro a0 a1 t ha htfs
    subst ha
    simp [handle_node, handleF, set_var_cursor, goto_next_sibling, handle_comment,
      run_directive, trim, trimLeft, trimEnd, stripPfx, stripSfx, hargs, htfs,
      STree.kind, STree.start_byte, STree.end_byte, STree.named, STree.text, STree.children]

/-- Witness for C8: `#[set_var(x)]` fails with `MissingArgument{2, 1}`,
and `#[set_var(x,int)]` records the `Declared` integer binding. -/
theorem c8_set_var_directive_witness :
    handle_node ⟨[], [], false⟩ (set_var_cursor 0 20 false ("x".toList) [] [] []) none =
      .perr ⟨[], [], false⟩ (set_var_cursor 0 20 false ("x".toList) [] [] [])
        ⟨.missingArgument 2 1, 0, 20⟩
    ∧ handle_node ⟨[], [], false⟩ (set_var_cursor 0 20 false ("x,int".toList) [] [] []) none =
      .ok (set_variable ⟨[], [], false⟩ ("x".toList) ⟨(0, 20), .integer, .Declared⟩
          (set_var_cursor 0 20 false ("x,int".toList) [] [] []))
        (set_var_cursor 0 20 false ("x,int".toList) [] [] []) :=
  ⟨(c8_set_var_directive ⟨[], [], false⟩ 0 20 false ("x".toList) [] [] [] none
      [("x".toList)] (by decide)).1 (by decide),
   (c8_set_var_directive ⟨[], [], false⟩ 0 20 false ("x,int".toList) [] [] [] none
      [("x".toList), ("int".toList)] (by decide)).2 ("x".toList) ("int".toList) .integer
      rfl (by decide)⟩

/-- C3: a `#[force]` directive suppresses the conflict diagnostic for
the redeclaration in the single statement that immediately follows it
(`a=1 #/ int` against an existing `string` binding produces no report)
without updating the stored type, and the flag is reset before any
subsequent statement, so the later identical redeclaration `a=2 #/ int`
is conflict-checked normally and produces the one conflict report; on
the same script without the directive, both redeclarations report. -/
theorem c3_force_single_statement :
    ∀ (V : List (Str × TypeDeclaration)) (E : List Report) (r : ByteRange) (m : Method),
      lookupVar V ("a".toList) = some ⟨r, .string, m⟩ →
      parse_loop 9 ⟨V, E, false⟩ (root_cursor force_tree) =
        .done ⟨V, E ++ [⟨24, .variableDefinedWithDifferentType ("a".toList),
          [⟨r, .typeToBe false m .string⟩,
           ⟨(20, 30), .typeToBe true .Declared .integer⟩]⟩], false⟩
      ∧ parse_loop 9 ⟨V, E, false⟩ (root_cursor noforce_tree) =
        .done ⟨V, E ++ [⟨13, .variableDefinedWithDifferentType ("a".toList),
            [⟨r, .typeToBe false m .string⟩,
             ⟨(9, 19), .typeToBe true .Declared .integer⟩]⟩,
          ⟨24, .variableDefinedWithDifferentType ("a".toList),
            [⟨r, .typeToBe false m .string⟩,
             ⟨(20, 30), .typeToBe true .Declared .integer⟩]⟩], false⟩ := by
  intro V E r m ha
  simp only [String.toList] at ha
  constructor
  · simp [parse_loop, handle_node, handleF, run_directive, advance, climb, climbF,
      goto_first_child, goto_next_sibling, goto_parent, root_cursor, handle_comment,
      infer_type, inferF, set_variable, type_from_string, tfsF, trim, trimLeft,
      trimEnd, stripPfx, stripSfx, splitOn, splitOnce, combine_ranges, prev_prev_sibling,
      STree.kind, STree.start_byte, STree.end_byte, STree.named, STree.text,
      STree.children, STree.child, STree.size, STree.sizeList, STree.named_child_count,
      force_tree, ha, mismatch_report, conflict_report, parse_err_report,
      label_from_type_declaration, BashType.can_contain, BashType.matches,
      BashType.matchesScalar, BashType.types_from_or]
  · simp [parse_loop, handle_node, handleF, run_directive, advance, climb, climbF,
      goto_first_child, goto_next_sibling, goto_parent, root_cursor, handle_comment,
      infer_type, inferF, set_variable, type_from_string, tfsF, trim, trimLeft,
      trimEnd, stripPfx, stripSfx, splitOn, splitOnce, combine_ranges, prev_prev_sibling,
      STree.kind, STree.start_byte, STree.end_byte, STree.named, STree.text,
      STree.children, STree.child, STree.size, STree.sizeList, STree.named_child_count,
      noforce_tree, ha, mismatch_report, conflict_report, parse_err_report,
      label_from_type_declaration, BashType.can_contain, BashType.matches,
      BashType.matchesScalar, BashType.types_from_or]

/-- Witness for C3 at the concrete store binding `a` to `string`. -/
theorem c3_force_single_statement_witness :
    parse_loop 9 ⟨[(("a".toList), ⟨(0, 0), .string, .Inferred⟩)], [], false⟩
        (root_cursor force_tree) =
      .done ⟨[(("a".toList), ⟨(0, 0), .string, .Inferred⟩)],
        [⟨24, .variableDefinedWithDifferentType ("a".toList),
          [⟨(0, 0), .typeToBe false .Inferred .string⟩,
           ⟨(20, 30), .typeToBe true .Declared .integer⟩]⟩], false⟩ :=
  (c3_force_single_statement [(("a".toList), ⟨(0, 0), .string, .Inferred⟩)] []
    (0, 0) .Inferred (by decide)).1

/-- C9: an assignment whose value expands an unbound name
(`b=$undefined`) produces exactly one `UnknownVariable` diagnostic,
records no binding for `b`, and the scan continues past the failed node
(the following `c=1` is still bound) and completes instead of aborting. -/
theorem c9_unknown_variable_recovery :
    ∀ (V : List (Str × TypeDeclaration)) (E : List Report),
      lookupVar V ("undefined".toList) = none →
      lookupVar V ("c".toList) = none →
      lookupVar V ("b".toList) = none →
      parse_loop 20 ⟨V, E, false⟩ (root_cursor unknown_var_tree) =
        .done ⟨V ++ [(("c".toList), ⟨(13, 16), .integer, .Inferred⟩)],
               E ++ [⟨2, .errorWhileParsingComment,
                 [⟨(3, 12), .parseErrMsg (.unknownVariable ("undefined".toList))⟩]⟩], false⟩
      ∧ lookupVar (V ++ [(("c".toList), ⟨(13, 16), .integer, .Inferred⟩)])
          ("b".toList) = none := by
  intro V E hu hc hb
  simp only [String.toList] at hu hc
  constructor
  · simp [parse_loop, handle_node, handleF, run_directive, advance, climb, climbF,
      goto_first_child, goto_next_sibling, goto_parent, root_cursor, handle_comment,
      infer_type, inferF, set_variable, type_from_string, tfsF, trim, trimLeft,
      trimEnd, stripPfx, stripSfx, splitOn, splitOnce, combine_ranges, prev_prev_sibling,
      STree.kind, STree.start_byte, STree.end_byte, STree.named, STree.text,
      STree.children, STree.child, STree.size, STree.sizeList, STree.named_child_count,
      unknown_var_tree, hu, hc, mismatch_report, conflict_report, parse_err_report,
      label_from_type_declaration, BashType.can_contain, BashType.matches,
      BashType.matchesScalar, BashType.types_from_or]
  · rw [lookupVar_append_of_none V ("b".toList) ("c".toList) _ hb]
    simp

/-- Witness for C9 at the empty initial store. -/
theorem c9_unknown_variable_recovery_witness :
    parse_loop 20 ⟨[], [], false⟩ (root_cursor unknown_var_tree) =
      .done ⟨[(("c".toList), ⟨(13, 16), .integer, .Inferred⟩)],
             [⟨2, .errorWhileParsingComment,
               [⟨(3, 12), .parseErrMsg (.unknownVariable ("undefined".toList))⟩]⟩],
             false⟩ := by
  have h := (c9_unknown_variable_recovery [] [] (by decide) (by decide) (by decide)).1
  simpa using h

end Bashtyped
